import Mathlib

set_option maxRecDepth 100000

/-!
A verification development for the RTK positioning client
(`src/rtk_positioning.py`).  The Python source is shallowly embedded:
byte strings become `List Nat`, text becomes `List Char`, Python floats
are modelled as exact rationals, and the stateful parser/mediator
methods become pure functions that thread their state explicitly and
report their side effects (serial writes, NTRIP socket writes, sink
calls) as an event trace.
-/

deriving instance DecidableEq for Except

/-! ## RTCM-3: CRC-24Q and the frame parser (`RTCMParser`) -/

/-- One round of the inner `for _ in range(8)` loop of `RTCMParser.crc24`:
shift left, conditionally xor the polynomial `0x1864CFB`, mask to 24 bits. -/
def crcRound (crc : Nat) : Nat :=
  (if crc &&& 0x800000 ≠ 0 then (crc <<< 1) ^^^ 0x1864CFB else crc <<< 1) &&& 0xFFFFFF

/-- Processing of one input byte by `RTCMParser.crc24`: xor the byte into
bits 16..23 and run eight `crcRound`s. -/
def crcByte (crc b : Nat) : Nat := crcRound^[8] (crc ^^^ (b <<< 16))

/-- `RTCMParser.crc24`: CRC-24Q with polynomial `0x1864CFB` and initial value 0. -/
def crc24 (data : List Nat) : Nat := data.foldl crcByte 0

/-- Big-endian value of a byte list; used for the 3 trailing CRC bytes
(`struct.unpack('>I', b'\x00' + message_data[-3:])`) and for the
16-bit message-type word (`struct.unpack('>H', payload[:2])`). -/
def beBytes (l : List Nat) : Nat := l.foldl (fun acc b => acc * 256 + b) 0

/-- A decoded RTCM message.  Mirrors the dict built in
`RTCMParser.parse_message` (`type`, `length`, `data`); the `frame` field
records the raw `message_data` bytes the dict was extracted from
(the `timestamp` entry, a wall-clock datetime, is omitted). -/
structure RTCMMsg where
  type : Nat
  length : Nat
  data : List Nat
  frame : List Nat
deriving DecidableEq, Repr

/-- Declared payload length: `((buffer[1] & 0x03) << 8) | buffer[2]`. -/
def rtcmLen (buf : List Nat) : Nat := ((buf.getD 1 0) &&& 0x03) <<< 8 ||| buf.getD 2 0

/-- The candidate frame: `message_data = bytes(self.buffer[:total_length])`. -/
def rtcmFrame (buf : List Nat) : List Nat := buf.take (rtcmLen buf + 6)

/-- The buffer remainder: `self.buffer = self.buffer[total_length:]`. -/
def rtcmRest (buf : List Nat) : List Nat := buf.drop (rtcmLen buf + 6)

/-- The payload slice `message_data[3:-3]`. -/
def rtcmPayload (frame : List Nat) : List Nat := (frame.drop 3).take (frame.length - 6)

/-- The CRC comparison of `parse_message`: the big-endian value of the last
three bytes must equal CRC-24Q over the rest (`message_data[:-3]`). -/
def rtcmCrcOk (frame : List Nat) : Bool :=
  beBytes (frame.drop (frame.length - 3)) == crc24 (frame.take (frame.length - 3))

/-- The message record built for a CRC-valid frame: type is the top 12 bits
of the first payload 16 bits, length the declared payload length. -/
def mkRTCMMsg (frame : List Nat) : RTCMMsg :=
  { type := beBytes ((rtcmPayload frame).take 2) >>> 4
    length := rtcmLen frame
    data := rtcmPayload frame
    frame := frame }

/-- One iteration of the `while len(self.buffer) >= 3` loop of
`RTCMParser.parse_message`: stop on a short buffer, sync on the first
`0xD3`, wait for a complete candidate, check its CRC, and either surface
the message (payload at least 2 bytes) or drop the candidate; `go`
continues the loop on the remaining buffer. -/
def parseStep (go : List Nat → List RTCMMsg × List Nat) (buffer : List Nat) :
    List RTCMMsg × List Nat :=
  if buffer.length < 3 then ([], buffer)
  else
    match buffer.findIdx? (fun b => b = 0xD3) with
    | none => ([], [])
    | some i =>
      if (buffer.drop i).length < 6 then ([], buffer.drop i)
      else if (buffer.drop i).length < rtcmLen (buffer.drop i) + 6 then ([], buffer.drop i)
      else if rtcmCrcOk (rtcmFrame (buffer.drop i)) then
        if 2 ≤ (rtcmPayload (rtcmFrame (buffer.drop i))).length then
          (mkRTCMMsg (rtcmFrame (buffer.drop i)) :: (go (rtcmRest (buffer.drop i))).1,
            (go (rtcmRest (buffer.drop i))).2)
        else go (rtcmRest (buffer.drop i))
      else go (rtcmRest (buffer.drop i))

/-- The framing loop of `RTCMParser.parse_message`, written with explicit
fuel (each iteration consumes at least six buffered bytes, so
`buffer.length` fuel always suffices; the fuel-out branch is unreachable
from `parse_message`).  Returns the surfaced messages and the final
buffer contents. -/
def parseLoopF : Nat → List Nat → List RTCMMsg × List Nat
  | 0, buffer => ([], buffer)
  | fuel + 1, buffer => parseStep (parseLoopF fuel) buffer

/-- `RTCMParser.parse_message`: extend the accumulated buffer with the new
chunk, then run the framing loop.  First component: the surfaced
messages; second: the buffer left for the next call. -/
def parse_message (buffer data : List Nat) : List RTCMMsg × List Nat :=
  parseLoopF (buffer.length + data.length) (buffer ++ data)

/-! ## RTCM statistics (`RTKPositioningSystem.rtcm_stats`) -/

/-- `self.rtcm_stats[t] = self.rtcm_stats.get(t, 0) + 1` on a Python dict,
modelled as an insertion-ordered association list. -/
def bump : List (Nat × Nat) → Nat → List (Nat × Nat)
  | [], t => [(t, 1)]
  | (k, v) :: s, t => if k = t then (k, v + 1) :: s else (k, v) :: bump s t

/-- Read a counter, defaulting to 0 for an absent key. -/
def statGet (s : List (Nat × Nat)) (t : Nat) : Nat := (s.lookup t).getD 0

/-- The statistics loop of `RTKPositioningSystem._on_ntrip_data`:
`for msg in messages: if msg_type: stats[msg_type] += 1`
(note the Python truthiness test, under which type 0 is not counted). -/
def updateStats (stats : List (Nat × Nat)) (msgs : List RTCMMsg) : List (Nat × Nat) :=
  msgs.foldl (fun s m => if m.type ≠ 0 then bump s m.type else s) stats

/-! ## NMEA text utilities

Python `str` values become `List Char`; `int`/`float` become partial
functions into `Int`/`ℚ` (floats are modelled as exact rationals, and
`float` parsing covers the plain decimal literals the protocol uses —
no exponent/inf/nan forms).  `str.upper` is modelled by the ASCII
`Char.toUpper`. -/

/-- The characters stripped by Python `str.strip()` (ASCII whitespace:
space, tab, newline, carriage return, vertical tab, form feed). -/
def isPySpace (c : Char) : Bool :=
  [' ', '\t', '\n', '\r', Char.ofNat 11, Char.ofNat 12].contains c

/-- Python `str.strip()`. -/
def pyStrip (s : List Char) : List Char :=
  ((s.dropWhile isPySpace).reverse.dropWhile isPySpace).reverse

/-- Value of a nonempty all-digit string. -/
def natVal (ds : List Char) : Nat := ds.foldl (fun a c => a * 10 + (c.toNat - 48)) 0

/-- Python `int(s)` on a decimal string: optional sign, then digits. -/
def pyInt (s : List Char) : Except Unit Int :=
  match pyStrip s with
  | '+' :: ds => if ds ≠ [] ∧ ds.all Char.isDigit then .ok (natVal ds) else .error ()
  | '-' :: ds => if ds ≠ [] ∧ ds.all Char.isDigit then .ok (-(natVal ds : Int)) else .error ()
  | ds => if ds ≠ [] ∧ ds.all Char.isDigit then .ok (natVal ds) else .error ()

/-- Unsigned decimal body of a float literal: `digits[.digits]`, `.digits`
or `digits.`. -/
def pyFloatBody (r : List Char) : Except Unit ℚ :=
  match r.dropWhile Char.isDigit with
  | [] => if r = [] then .error () else .ok (natVal r)
  | '.' :: fp =>
    if (fp.all Char.isDigit ∧ (r.takeWhile Char.isDigit ≠ [] ∨ fp ≠ [])) then
      .ok ((natVal (r.takeWhile Char.isDigit) : ℚ) + (natVal fp : ℚ) / (10 : ℚ) ^ fp.length)
    else .error ()
  | _ => .error ()

/-- Python `float(s)` on a plain decimal literal, as an exact rational. -/
def pyFloat (s : List Char) : Except Unit ℚ :=
  match pyStrip s with
  | '+' :: r => pyFloatBody r
  | '-' :: r => (pyFloatBody r).map Neg.neg
  | r => pyFloatBody r

/-- Python `int(q)` on a float: truncation toward zero. -/
def pyTrunc (q : ℚ) : Int := if 0 ≤ q then ⌊q⌋ else -⌊-q⌋

/-- Uppercase hexadecimal digit. -/
def hexDigitU (n : Nat) : Char :=
  if n < 10 then Char.ofNat (48 + n) else Char.ofNat (55 + n)

/-- Minimal uppercase hex digits of `n`; the first argument is fuel
(`toHexU` passes `n` itself, which always suffices). -/
def toHexAux : Nat → Nat → List Char
  | 0, n => [hexDigitU (n % 16)]
  | fuel + 1, n => if n < 16 then [hexDigitU n] else toHexAux fuel (n / 16) ++ [hexDigitU (n % 16)]

/-- Minimal uppercase hex representation of `n`. -/
def toHexU (n : Nat) : List Char := toHexAux n n

/-- Python `f"{n:02X}"`: uppercase hex, zero-padded to at least two digits. -/
def pyHex02 (n : Nat) : List Char := if n < 16 then ['0', hexDigitU n] else toHexU n

/-! ## NMEA checksum (`NMEAParser.calculate_checksum` / `validate_checksum`) -/

/-- XOR of the character codes of a string. -/
def nmea_xor (s : List Char) : Nat := s.foldl (fun a c => a ^^^ c.toNat) 0

/-- `NMEAParser.calculate_checksum`: XOR of all characters, rendered as two
uppercase hex digits (`f"{checksum:02X}"`). -/
def calculate_checksum (s : List Char) : List Char := pyHex02 (nmea_xor s)

/-- The part of a sentence before the first `*` (`sentence.split('*', 1)[0]`). -/
def nmea_pre (t : List Char) : List Char := t.takeWhile (fun c => c ≠ '*')

/-- The part of a sentence after the first `*` (`sentence.split('*', 1)[1]`). -/
def nmea_post (t : List Char) : List Char := (t.dropWhile (fun c => c ≠ '*')).drop 1

/-- `NMEAParser.validate_checksum`: length ≥ 8, a `*` present, exactly two
characters after the first `*`, and the recomputed XOR over the characters
between `$` and `*` equal to those two characters uppercased. -/
def validate_checksum (s : List Char) : Bool :=
  if s.length < 8 then false
  else if ¬ s.contains '*' then false
  else if (nmea_post s).length ≠ 2 then false
  else calculate_checksum ((nmea_pre s).drop 1) == (nmea_post s).map Char.toUpper

/-! ## Fix records (`FixQuality`, `PositionType`, `GPSPosition`) -/

/-- The `FixQuality` enum. -/
inductive FixQuality where
  | INVALID | GPS_FIX | DGPS_FIX | PPS_FIX | RTK_FIXED | RTK_FLOAT
  | ESTIMATED | MANUAL | SIMULATION
deriving DecidableEq, Repr

/-- The `FixQuality(value)` constructor call: defined on 0..8, a
`ValueError` (here `none`) otherwise. -/
def FixQuality.ofInt? (q : Int) : Option FixQuality :=
  if q = 0 then some .INVALID
  else if q = 1 then some .GPS_FIX
  else if q = 2 then some .DGPS_FIX
  else if q = 3 then some .PPS_FIX
  else if q = 4 then some .RTK_FIXED
  else if q = 5 then some .RTK_FLOAT
  else if q = 6 then some .ESTIMATED
  else if q = 7 then some .MANUAL
  else if q = 8 then some .SIMULATION
  else none

/-- The `PositionType` enum. -/
inductive PositionType where
  | ROVER | BASE
deriving DecidableEq, Repr

/-- Timestamps as the parser builds them: `datetime.now()`,
`now.replace(hour=h, minute=m, second=s, microsecond=0)` (today at a
given time of day), or a full `datetime(y, mo, d, h, mi, s)`. -/
inductive PyTimestamp where
  | now
  | todayAt (h m s : Int)
  | date (y mo d h mi s : Int)
deriving DecidableEq, Repr

/-- `now.replace(hour=h, minute=m, second=s, microsecond=0)`; raises
`ValueError` outside the valid ranges. -/
def pyReplace (h m s : Int) : Except Unit PyTimestamp :=
  if 0 ≤ h ∧ h < 24 ∧ 0 ≤ m ∧ m < 60 ∧ 0 ≤ s ∧ s < 60 then .ok (.todayAt h m s)
  else .error ()

/-- Gregorian leap year, as `datetime` uses. -/
def isLeap (y : Int) : Bool := y % 4 == 0 && (y % 100 != 0 || y % 400 == 0)

/-- Days in a month. -/
def daysInMonth (y mo : Int) : Int :=
  if mo = 2 then (if isLeap y then 29 else 28)
  else if mo = 4 ∨ mo = 6 ∨ mo = 9 ∨ mo = 11 then 30
  else 31

/-- The `datetime(y, mo, d, h, mi, s)` constructor; raises `ValueError`
outside the valid ranges. -/
def pyDatetime (y mo d h mi s : Int) : Except Unit PyTimestamp :=
  if 1 ≤ y ∧ y ≤ 9999 ∧ 1 ≤ mo ∧ mo ≤ 12 ∧ 1 ≤ d ∧ d ≤ daysInMonth y mo
      ∧ 0 ≤ h ∧ h < 24 ∧ 0 ≤ mi ∧ mi < 60 ∧ 0 ≤ s ∧ s < 60 then
    .ok (.date y mo d h mi s)
  else .error ()

/-- The `GPSPosition` dataclass with its field defaults (`extra_info`,
an open dict unused by the parsing core, is omitted). -/
structure GPSPosition where
  latitude : ℚ := 0
  longitude : ℚ := 0
  altitude : ℚ := 0
  fix_quality : FixQuality := .INVALID
  satellites_used : Int := 0
  hdop : ℚ := 0
  timestamp : PyTimestamp := .now
  speed : ℚ := 0
  course : ℚ := 0
  age : ℚ := 0
  stn_id : Int := 0
  type : PositionType := .ROVER
deriving DecidableEq, Repr

/-! ## NMEA field decoders (`NMEAParser.parse_gga` / `parse_rmc` / `parse_gll`)

Each decoder body sits inside `try: ... except (ValueError, IndexError)`,
which returns the previous rolling fix unchanged; this is modelled with
`Except Unit`, errors standing for the raised exceptions. -/

/-- `NMEAParser.parse_coordinate`: `ddmm.mmmm` plus hemisphere; returns 0.0
for empty inputs and on a float parse failure (it catches its own
`ValueError`). -/
def parse_coordinate (coord dir : List Char) : ℚ :=
  if coord = [] ∨ dir = [] then 0
  else
    match pyFloat coord with
    | .error _ => 0
    | .ok c =>
      let degrees : Int := pyTrunc (c / 100)
      let dd : ℚ := degrees + (c - degrees * 100) / 60
      if dir = ['S'] ∨ dir = ['W'] then -dd else dd

/-- `int(f) if f else 0`. -/
def optInt (s : List Char) : Except Unit Int := if s = [] then .ok 0 else pyInt s

/-- `float(f) if f else 0.0`. -/
def optFloat (s : List Char) : Except Unit ℚ := if s = [] then .ok 0 else pyFloat s

/-- The time-of-day parse shared by GGA and GLL:
`hour = int(t[:2]); minute = int(t[2:4]); second = int(float(t[4:]))`
then `now.replace(...)`; empty field means `datetime.now()`. -/
def timeOfDay (t : List Char) : Except Unit PyTimestamp :=
  if t = [] then .ok .now
  else
    match pyInt (t.take 2) with
    | .error e => .error e
    | .ok h =>
      match pyInt ((t.drop 2).take 2) with
      | .error e => .error e
      | .ok m =>
        match pyFloat (t.drop 4) with
        | .error e => .error e
        | .ok sq => pyReplace h m (pyTrunc sq)

/-- The fix-quality computation of `parse_gga`:
`quality = int(fields[6]) if fields[6] else 0` then
`FixQuality(quality) if quality <= 8 else FixQuality.INVALID`. -/
def ggaQuality (s : List Char) : Except Unit FixQuality :=
  match optInt s with
  | .error e => .error e
  | .ok q =>
    if q ≤ 8 then
      match FixQuality.ofInt? q with
      | some f => .ok f
      | none => .error ()
    else .ok FixQuality.INVALID

/-- The body of the `try` block of `parse_gga` (fields 1..14 in source
order; coordinates never raise).  On success a fresh `GPSPosition` is
assembled, with `speed`, `course` and `type` left at their defaults. -/
def ggaAssemble (fields : List (List Char)) : Except Unit GPSPosition :=
  match timeOfDay (fields.getD 1 []) with
  | .error e => .error e
  | .ok ts =>
    match ggaQuality (fields.getD 6 []) with
    | .error e => .error e
    | .ok fq =>
      match optInt (fields.getD 7 []) with
      | .error e => .error e
      | .ok sats =>
        match optFloat (fields.getD 8 []) with
        | .error e => .error e
        | .ok hdop =>
          match optFloat (fields.getD 9 []) with
          | .error e => .error e
          | .ok altitude =>
            match optFloat (fields.getD 13 []) with
            | .error e => .error e
            | .ok age =>
              match optInt (fields.getD 14 []) with
              | .error e => .error e
              | .ok stn =>
                .ok { latitude := parse_coordinate (fields.getD 2 []) (fields.getD 3 [])
                      longitude := parse_coordinate (fields.getD 4 []) (fields.getD 5 [])
                      altitude := altitude
                      fix_quality := fq
                      satellites_used := sats
                      hdop := hdop
                      timestamp := ts
                      age := age
                      stn_id := stn }

/-- `NMEAParser.parse_gga`: fewer than 15 fields, or any raised
`ValueError`, returns the previous rolling fix `self.position` unchanged. -/
def parse_gga (pos : GPSPosition) (fields : List (List Char)) : GPSPosition :=
  if fields.length < 15 then pos
  else
    match ggaAssemble fields with
    | .ok p => p
    | .error _ => pos

/-- `float(fields[7]) * 1.852 if fields[7] else 0.0` (knots to km/h). -/
def rmcSpeed (s : List Char) : Except Unit ℚ :=
  if s = [] then .ok 0
  else
    match pyFloat s with
    | .error e => .error e
    | .ok v => .ok (v * (1.852 : ℚ))

/-- The RMC date+time parse: `ddmmyy` and `hhmmss[.ss]` combined into
`datetime(2000+yy, mm, dd, h, m, s)`; either field empty means now. -/
def rmcTimestamp (date_str time_str : List Char) : Except Unit PyTimestamp :=
  if date_str ≠ [] ∧ time_str ≠ [] then
    match pyInt (date_str.take 2) with
    | .error e => .error e
    | .ok day =>
      match pyInt ((date_str.drop 2).take 2) with
      | .error e => .error e
      | .ok month =>
        match pyInt ((date_str.drop 4).take 2) with
        | .error e => .error e
        | .ok yy =>
          match pyInt (time_str.take 2) with
          | .error e => .error e
          | .ok h =>
            match pyInt ((time_str.drop 2).take 2) with
            | .error e => .error e
            | .ok m =>
              match pyFloat (time_str.drop 4) with
              | .error e => .error e
              | .ok sq => pyDatetime (2000 + yy) month day h m (pyTrunc sq)
  else .ok .now

/-- The body of the `try` block of `parse_rmc` (after the status test):
updates position, speed, course and timestamp on the rolling fix,
leaving quality untouched. -/
def rmcAssemble (pos : GPSPosition) (fields : List (List Char)) : Except Unit GPSPosition :=
  match rmcSpeed (fields.getD 7 []) with
  | .error e => .error e
  | .ok speed =>
    match optFloat (fields.getD 8 []) with
    | .error e => .error e
    | .ok course =>
      match rmcTimestamp (fields.getD 9 []) (fields.getD 1 []) with
      | .error e => .error e
      | .ok ts =>
        .ok { pos with
              latitude := parse_coordinate (fields.getD 3 []) (fields.getD 4 [])
              longitude := parse_coordinate (fields.getD 5 []) (fields.getD 6 [])
              speed := speed
              course := course
              timestamp := ts }

/-- `NMEAParser.parse_rmc`: fewer than 12 fields, a status other than `A`,
or a raised `ValueError` returns the rolling fix unchanged. -/
def parse_rmc (pos : GPSPosition) (fields : List (List Char)) : GPSPosition :=
  if fields.length < 12 then pos
  else if fields.getD 2 [] ≠ ['A'] then pos
  else
    match rmcAssemble pos fields with
    | .ok p => p
    | .error _ => pos

/-- The body of the `try` block of `parse_gll`: position, time of day and
a status-derived quality on the rolling fix. -/
def gllAssemble (pos : GPSPosition) (fields : List (List Char)) : Except Unit GPSPosition :=
  match timeOfDay (fields.getD 5 []) with
  | .error e => .error e
  | .ok ts =>
    .ok { pos with
          latitude := parse_coordinate (fields.getD 1 []) (fields.getD 2 [])
          longitude := parse_coordinate (fields.getD 3 []) (fields.getD 4 [])
          timestamp := ts
          fix_quality := if fields.getD 6 [] = ['A'] then FixQuality.GPS_FIX
                         else FixQuality.INVALID }

/-- `NMEAParser.parse_gll`: fewer than 7 fields or a raised `ValueError`
returns the rolling fix unchanged. -/
def parse_gll (pos : GPSPosition) (fields : List (List Char)) : GPSPosition :=
  if fields.length < 7 then pos
  else
    match gllAssemble pos fields with
    | .ok p => p
    | .error _ => pos

/-! ## NMEA sentence dispatch (`NMEAParser.parse_sentence`) -/

/-- The per-sentence state of the NMEA decoder: the rolling fix
`self.position` and the enabled message-type set. -/
structure NMEAState where
  position : GPSPosition
  enabled : List (List Char)
deriving DecidableEq, Repr

/-- A dispatched sentence: the three-letter type, the comma-split fields,
and the position value the registered callback receives. -/
structure Dispatch where
  mtype : List Char
  fields : List (List Char)
  position : Option GPSPosition
deriving DecidableEq, Repr

/-- `NMEAParser.parse_sentence`: strip, require a leading `$`, validate
the checksum, drop the `*CC` suffix, split on commas and dispatch on the
type taken from `fields[0][3:]`.  Returns the value `parse_sentence`
returns, the updated state, and — when the enabled-set test passes — the
`Dispatch` handed to a registered callback for that type. -/
def parse_sentence (st : NMEAState) (sentence : List Char) :
    Option GPSPosition × NMEAState × Option Dispatch :=
  let t := pyStrip sentence
  if t.head? ≠ some '$' then (none, st, none)
  else if ¬ validate_checksum t then (none, st, none)
  else
    let t' := if t.contains '*' then nmea_pre t else t
    let fields := t'.splitOn ','
    let mtype := (fields.getD 0 []).drop 3
    if ¬ st.enabled.contains mtype then (none, st, none)
    else if mtype = "GGA".data then
      (some (parse_gga st.position fields),
        { st with position := parse_gga st.position fields },
        some ⟨mtype, fields, some (parse_gga st.position fields)⟩)
    else if mtype = "RMC".data then
      (some (parse_rmc st.position fields),
        { st with position := parse_rmc st.position fields },
        some ⟨mtype, fields, some (parse_rmc st.position fields)⟩)
    else if mtype = "GLL".data then
      (some (parse_gll st.position fields),
        { st with position := parse_gll st.position fields },
        some ⟨mtype, fields, some (parse_gll st.position fields)⟩)
    else (none, st, some ⟨mtype, fields, none⟩)

/-! ## The mediator (`RTKPositioningSystem`)

The side-effecting callbacks become pure functions from state and input
to new state plus an event trace: `serialWrite` is a byte write into the
serial port (`SerialCommunicator.send_data` on an open port),
`rtcmFeed` marks the `self.rtcm_parser.parse_message(data)` call,
`ntripSend` is a byte write into the NTRIP socket
(`NTRIPClient.send_gga`, which appends `\r\n`), `sinkPosition` is
`self.position_handler.handle_position(...)`, and `logStats` the
10-second statistics log line.  The per-type RTCM callbacks (the
1005/1077 handlers) are outside the claims and not modelled. -/

/-- Events observable at the mediator boundary. -/
inductive Event where
  | serialWrite (data : List Nat)
  | rtcmFeed (data : List Nat)
  | ntripSend (line : List Char)
  | sinkPosition (p : Option GPSPosition)
  | logStats
deriving DecidableEq, Repr

/-- `SerialCommunicator.send_data`: on a closed port, warn and return
`False` without writing; otherwise write the bytes and flush (the
exception branch for a failed write is not modelled). -/
def send_data (connected : Bool) (data : List Nat) : Bool × List Event :=
  if connected then (true, [Event.serialWrite data]) else (false, [])

/-- The `\r\n` terminator appended by `NTRIPClient.send_gga`. -/
def CRLF : List Char := ['\r', '\n']

/-- `NTRIPClient.send_gga`: if connected, write the sentence plus `\r\n`
to the socket; otherwise do nothing. -/
def send_gga (connected : Bool) (line : List Char) : List Event :=
  if connected then [Event.ntripSend (line ++ CRLF)] else []

/-- The compiled-in default GGA (`self.default_gga`). -/
def default_gga : List Char :=
  "$GPGGA,065956.60,3013.3614955,N,12021.3076062,E,1,25,0.8,7.7175,M,7.953,M,,*69".data

/-- `','.join(fields)`. -/
def joinComma (fields : List (List Char)) : List Char := [','].intercalate fields

/-- The mediator's mutable cells and endpoint flags (threads, logger and
the parsers' own state are factored out; the NMEA state is carried
separately where needed). -/
structure RTKState where
  rtcm_buffer : List Nat
  rtcm_stats : List (Nat × Nat)
  last_gga_time : ℚ
  serial_configured : Bool
  serial_connected : Bool
  ntrip_configured : Bool
  ntrip_connected : Bool
  has_position_handler : Bool
deriving DecidableEq, Repr

/-- `RTKPositioningSystem._on_ntrip_data`: first forward the raw bytes to
the serial port (when one is configured), then feed the same bytes to
the RTCM decoder and count the surfaced message types. -/
def on_ntrip_data (st : RTKState) (data : List Nat) : RTKState × List Event :=
  let fwd := if st.serial_configured then (send_data st.serial_connected data).2 else []
  let parsed := parse_message st.rtcm_buffer data
  ({ st with rtcm_buffer := parsed.2, rtcm_stats := updateStats st.rtcm_stats parsed.1 },
    fwd ++ [Event.rtcmFeed data])

/-- `RTKPositioningSystem._on_gga_received`: stamp `last_gga_time`, hand
the fix to the position handler when one exists, and uplink either the
comma-joined fields (valid fix) or the default GGA (invalid fix) when
the NTRIP endpoint is configured and connected. -/
def on_gga_received (st : RTKState) (nowT : ℚ) (fields : List (List Char))
    (position : Option GPSPosition) : RTKState × List Event :=
  let sinkEv := if st.has_position_handler then [Event.sinkPosition position] else []
  let upEv :=
    match position with
    | some p =>
      if p.fix_quality ≠ FixQuality.INVALID then
        if st.ntrip_configured && st.ntrip_connected then
          send_gga st.ntrip_connected (joinComma fields)
        else []
      else
        if st.ntrip_configured && st.ntrip_connected then
          send_gga st.ntrip_connected default_gga
        else []
    | none =>
      if st.ntrip_configured && st.ntrip_connected then
        send_gga st.ntrip_connected default_gga
      else []
  ({ st with last_gga_time := nowT }, sinkEv ++ upEv)

/-- One iteration of `RTKPositioningSystem._monitor_loop`: send the
default GGA when the NTRIP endpoint is connected and no receiver GGA
arrived within the 2-second keep-alive window (without touching
`last_gga_time`), and log statistics on 10-second wall-clock boundaries. -/
def monitor_tick (st : RTKState) (nowT : ℚ) : RTKState × List Event :=
  let keepAlive :=
    if st.ntrip_configured && st.ntrip_connected then
      if nowT - st.last_gga_time > 2 then send_gga st.ntrip_connected default_gga else []
    else []
  let statsLog :=
    if pyTrunc nowT % 10 = 0 then (if st.rtcm_stats ≠ [] then [Event.logStats] else [])
    else []
  (st, keepAlive ++ statsLog)

/-! ## Concrete inputs used by witnesses and counterexamples -/

/-- A CRC-valid RTCM frame: header `0xD3`, declared length 4, payload
`AA BB CC DD`, trailing CRC-24Q (the frame the mock NTRIP client emits). -/
def goodFrame : List Nat := [0xD3, 0x00, 0x04, 0xAA, 0xBB, 0xCC, 0xDD, 0x83, 0xA2, 0x00]

/-- A corrupted candidate: a false `0xD3` header whose declared length (7)
swallows the valid `goodFrame` that starts 3 bytes later. -/
def badStream : List Nat := [0xD3, 0x00, 0x07] ++ goodFrame

/-- A CRC-valid RTCM frame with declared payload length 0. -/
def zeroFrame : List Nat := [0xD3, 0x00, 0x00, 0x47, 0xEA, 0x4B]

/-- A fresh `GPSPosition()` with all defaults. -/
def initPos : GPSPosition := {}

/-- A rolling fix whose quality is a valid GPS fix. -/
def posFix : GPSPosition := { fix_quality := FixQuality.GPS_FIX }

/-- A fresh parser state with the default enabled set `{GGA, RMC, GLL}`. -/
def nmeaInit : NMEAState := { position := initPos, enabled := ["GGA".data, "RMC".data, "GLL".data] }

/-- A parser state whose rolling fix already holds a valid GPS fix. -/
def nmeaGood : NMEAState := { position := posFix, enabled := ["GGA".data, "RMC".data, "GLL".data] }

/-- A mediator state with every endpoint configured, connected and a
position handler present. -/
def st0 : RTKState :=
  { rtcm_buffer := [], rtcm_stats := [], last_gga_time := 0,
    serial_configured := true, serial_connected := true,
    ntrip_configured := true, ntrip_connected := true,
    has_position_handler := true }

/-- The reference GGA sentence of the seed scenarios. -/
def seedGGA : List Char :=
  "$GPGGA,123519,4807.038,N,01131.000,E,1,08,0.9,545.4,M,46.9,M,,*47".data

/-- A checksum-valid GGA sentence with only two fields. -/
def shortGGA : List Char := "$GPGGA,123519*77".data

/-- Seed GGA fields with the quality field replaced by `-1`. -/
def fieldsNegQ : List (List Char) :=
  ["$GPGGA".data, "123519".data, "4807.038".data, "N".data, "01131.000".data, "E".data,
    "-1".data, "08".data, "0.9".data, "545.4".data, "M".data, "46.9".data, "M".data,
    "".data, "".data]

/-- Seed GGA fields with the quality field replaced by `9`. -/
def fieldsQ9 : List (List Char) :=
  ["$GPGGA".data, "123519".data, "4807.038".data, "N".data, "01131.000".data, "E".data,
    "9".data, "08".data, "0.9".data, "545.4".data, "M".data, "46.9".data, "M".data,
    "".data, "".data]

/-- Seed GGA fields with the satellites field replaced by the unparseable
`xx`. -/
def fieldsBadSats : List (List Char) :=
  ["$GPGGA".data, "123519".data, "4807.038".data, "N".data, "01131.000".data, "E".data,
    "1".data, "xx".data, "0.9".data, "545.4".data, "M".data, "46.9".data, "M".data,
    "".data, "".data]

/-- Seed GGA fields with the HDOP field replaced by the unparseable `xx`. -/
def fieldsBadHdop : List (List Char) :=
  ["$GPGGA".data, "123519".data, "4807.038".data, "N".data, "01131.000".data, "E".data,
    "1".data, "08".data, "xx".data, "545.4".data, "M".data, "46.9".data, "M".data,
    "".data, "".data]

/-- Seed GGA fields with an empty HDOP field. -/
def fieldsEmptyHdop : List (List Char) :=
  ["$GPGGA".data, "123519".data, "4807.038".data, "N".data, "01131.000".data, "E".data,
    "1".data, "08".data, "".data, "545.4".data, "M".data, "46.9".data, "M".data,
    "".data, "".data]

/-- The dispatch produced by feeding a sentence to a given parser state
(defaulting to a vacuous dispatch, for use in closed statements). -/
def dOf (st : NMEAState) (s : List Char) : Dispatch :=
  ((parse_sentence st s).2.2).getD ⟨[], [], none⟩

/-- The mediator trace for the seed GGA sentence fed through parser and
GGA handler at wall-clock 5. -/
def c5trace : List Event :=
  (on_gga_received st0 5 (dOf nmeaInit seedGGA).fields (dOf nmeaInit seedGGA).position).2

/-! ## Lemmas about the RTCM framing loop -/

/-- A buffer that starts with `0xD3` syncs at index 0. -/
theorem findIdx_D3_of_head {l : List Nat} (h : l.head? = some 0xD3) :
    l.findIdx? (fun b => b = 0xD3) = some 0 := by
  cases l with
  | nil => simp at h
  | cons a t =>
    simp only [List.head?_cons, Option.some.injEq] at h
    subst h
    rw [List.findIdx?_cons]
    simp

/-- `getD` commutes with a sufficiently long `take`. -/
theorem getD_take_lt (l : List Nat) (n i : Nat) (h : i < n) :
    (l.take n).getD i 0 = l.getD i 0 := by
  induction l generalizing n i with
  | nil => simp
  | cons a t ih =>
    cases n with
    | zero => omega
    | succ n =>
      cases i with
      | zero => simp
      | succ i => simpa using ih n i (by omega)

/-- The declared length only reads bytes 1 and 2, so it is stable under
taking at least three bytes. -/
theorem rtcmLen_take (l : List Nat) (n : Nat) (h : 3 ≤ n) :
    rtcmLen (l.take n) = rtcmLen l := by
  unfold rtcmLen
  rw [getD_take_lt l n 1 (by omega), getD_take_lt l n 2 (by omega)]

/-- The declared length is stable under appending after at least three bytes. -/
theorem rtcmLen_append (l l' : List Nat) (h : 3 ≤ l.length) :
    rtcmLen (l ++ l') = rtcmLen l := by
  unfold rtcmLen
  rw [List.getD_append _ _ _ _ (by omega), List.getD_append _ _ _ _ (by omega)]

/-- Length of a complete candidate frame. -/
theorem rtcmFrame_length (l : List Nat) (h : rtcmLen l + 6 ≤ l.length) :
    (rtcmFrame l).length = rtcmLen l + 6 := by
  simp only [rtcmFrame, List.length_take]
  omega

/-- Payload length of a complete candidate frame. -/
theorem rtcmPayload_length (l : List Nat) (h : rtcmLen l + 6 ≤ l.length) :
    (rtcmPayload (rtcmFrame l)).length = rtcmLen l := by
  simp only [rtcmPayload, List.length_take, List.length_drop, rtcmFrame_length l h]
  omega

/-- The loop body only calls its continuation on buffers at least six
bytes shorter, so congruent continuations give congruent steps. -/
theorem parseStep_congr (g₁ g₂ : List Nat → List RTCMMsg × List Nat) (l : List Nat)
    (h : ∀ r : List Nat, r.length + 6 ≤ l.length → g₁ r = g₂ r) :
    parseStep g₁ l = parseStep g₂ l := by
  unfold parseStep
  split
  · rfl
  · split
    · rfl
    · rename_i hlen3 i hfind
      split
      · rfl
      · split
        · rfl
        · rename_i h6 hcomplete
          have hdrop : (l.drop i).length = l.length - i := List.length_drop i l
          have hr : (rtcmRest (l.drop i)).length + 6 ≤ l.length := by
            simp only [rtcmRest, List.length_drop]
            omega
          split
          · split
            · rw [h _ hr]
            · exact h _ hr
          · exact h _ hr

/-- Adding one unit of fuel beyond the buffer length changes nothing. -/
theorem parseLoopF_succ : ∀ (f : Nat) (l : List Nat), l.length ≤ f →
    parseLoopF (f + 1) l = parseLoopF f l := by
  intro f
  induction f with
  | zero =>
    intro l hl
    have h0 : l = [] := List.length_eq_zero.mp (Nat.le_zero.mp hl)
    subst h0
    rfl
  | succ f ih =>
    intro l hl
    show parseStep (parseLoopF (f + 1)) l = parseStep (parseLoopF f) l
    exact parseStep_congr _ _ _ (fun r hr => ih r (by omega))

/-- Any sufficient fuel computes the same result as fuel `l.length`. -/
theorem parseLoopF_of_le : ∀ (f : Nat) (l : List Nat), l.length ≤ f →
    parseLoopF f l = parseLoopF l.length l := by
  intro f
  induction f with
  | zero =>
    intro l hl
    rw [Nat.le_zero.mp hl]
  | succ f ih =>
    intro l hl
    rcases Nat.lt_or_ge l.length (f + 1) with h | h
    · have hle : l.length ≤ f := by omega
      rw [parseLoopF_succ f l hle, ih l hle]
    · have heq : l.length = f + 1 := by omega
      rw [heq]

/-- `parse_message` is the loop at fuel equal to the buffer length. -/
theorem parse_message_def (buffer data : List Nat) :
    parse_message buffer data = parseLoopF (buffer ++ data).length (buffer ++ data) := by
  simp [parse_message, List.length_append]

/-- A step on a buffer whose leading candidate fails the CRC drops the
whole candidate (`total_length` bytes) and continues. -/
theorem parseStep_crc_fail (go : List Nat → List RTCMMsg × List Nat) (l : List Nat)
    (h0 : l.head? = some 0xD3)
    (hc : rtcmLen l + 6 ≤ l.length)
    (hcrc : rtcmCrcOk (rtcmFrame l) = false) :
    parseStep go l = go (rtcmRest l) := by
  unfold parseStep
  rw [if_neg (by omega), findIdx_D3_of_head h0]
  simp only [List.drop_zero]
  rw [if_neg (by omega), if_neg (by omega), if_neg (by simp [hcrc])]

/-- A step on a buffer whose leading candidate passes the CRC with a
payload of at least two bytes surfaces the message and continues past it. -/
theorem parseStep_crc_ok (go : List Nat → List RTCMMsg × List Nat) (l : List Nat)
    (h0 : l.head? = some 0xD3)
    (hc : rtcmLen l + 6 ≤ l.length)
    (hcrc : rtcmCrcOk (rtcmFrame l) = true)
    (hpay : 2 ≤ rtcmLen l) :
    parseStep go l = (mkRTCMMsg (rtcmFrame l) :: (go (rtcmRest l)).1, (go (rtcmRest l)).2) := by
  unfold parseStep
  rw [if_neg (by omega), findIdx_D3_of_head h0]
  simp only [List.drop_zero]
  rw [if_neg (by omega), if_neg (by omega), if_pos hcrc,
    if_pos (by rw [rtcmPayload_length l hc]; omega)]

/-- Every message the framing loop surfaces comes from a complete,
CRC-valid candidate frame whose declared length matches its size. -/
theorem parseLoopF_frames : ∀ (f : Nat) (l : List Nat) (msg : RTCMMsg),
    msg ∈ (parseLoopF f l).1 →
    crc24 (msg.frame.take (msg.length + 3)) = beBytes (msg.frame.drop (msg.length + 3)) ∧
    msg.frame.length = msg.length + 6 ∧
    msg.length = rtcmLen msg.frame := by
  intro f
  induction f with
  | zero =>
    intro l msg h
    simp [parseLoopF] at h
  | succ f ih =>
    intro l msg h
    rw [show parseLoopF (f + 1) l = parseStep (parseLoopF f) l from rfl] at h
    unfold parseStep at h
    split at h
    · simp at h
    · split at h
      · simp at h
      · rename_i hlen3 i hfind
        split at h
        · simp at h
        · split at h
          · simp at h
          · rename_i h6 hcomplete
            have hc : rtcmLen (l.drop i) + 6 ≤ (l.drop i).length := by omega
            split at h
            · rename_i hcrc
              split at h
              · rcases List.mem_cons.mp h with hmsg | hmem
                · subst hmsg
                  have hflen : (rtcmFrame (l.drop i)).length = rtcmLen (l.drop i) + 6 :=
                    rtcmFrame_length _ hc
                  have hlenfr : rtcmLen (rtcmFrame (l.drop i)) = rtcmLen (l.drop i) :=
                    rtcmLen_take _ _ (by omega)
                  have hml : (mkRTCMMsg (rtcmFrame (l.drop i))).length = rtcmLen (l.drop i) := by
                    simp [mkRTCMMsg, hlenfr]
                  refine ⟨?_, ?_, ?_⟩
                  · have hcrc' := of_decide_eq_true hcrc
                    have hb : beBytes ((rtcmFrame (l.drop i)).drop
                          ((rtcmFrame (l.drop i)).length - 3)) =
                        crc24 ((rtcmFrame (l.drop i)).take
                          ((rtcmFrame (l.drop i)).length - 3)) := by
                      simpa [rtcmCrcOk] using hcrc
                    have h3 : (rtcmFrame (l.drop i)).length - 3 =
                        (mkRTCMMsg (rtcmFrame (l.drop i))).length + 3 := by
                      rw [hflen, hml]
                      omega
                    rw [h3] at hb
                    simpa [mkRTCMMsg] using hb.symm
                  · simpa [mkRTCMMsg, hlenfr] using hflen
                  · simp [mkRTCMMsg]
                · exact ih _ _ hmem
              · exact ih _ _ h
            · exact ih _ _ h

/-- C3: every frame surfaced by the RTCM framer satisfies the CRC-24Q
equation — the CRC over its first `L+3` bytes equals the big-endian
value of its last 3 bytes — and its declared payload length `L` (the low
10 bits of the two length bytes) equals its total wire size minus 6. -/
theorem rtcm_surfaced_frame_invariant (buffer data : List Nat) (msg : RTCMMsg)
    (h : msg ∈ (parse_message buffer data).1) :
    crc24 (msg.frame.take (msg.length + 3)) = beBytes (msg.frame.drop (msg.length + 3)) ∧
    msg.frame.length = msg.length + 6 ∧
    msg.length = rtcmLen msg.frame :=
  parseLoopF_frames (buffer.length + data.length) (buffer ++ data) msg h

/-- Witness for C3 on the mock NTRIP client's frame. -/
theorem rtcm_surfaced_frame_invariant_witness :
    crc24 ((mkRTCMMsg goodFrame).frame.take ((mkRTCMMsg goodFrame).length + 3)) =
        beBytes ((mkRTCMMsg goodFrame).frame.drop ((mkRTCMMsg goodFrame).length + 3)) ∧
      (mkRTCMMsg goodFrame).frame.length = (mkRTCMMsg goodFrame).length + 6 ∧
      (mkRTCMMsg goodFrame).length = rtcmLen (mkRTCMMsg goodFrame).frame :=
  rtcm_surfaced_frame_invariant [] goodFrame (mkRTCMMsg goodFrame) (by decide)

/-- C1 (counterexample): a corrupted candidate whose declared length
swallows a CRC-valid frame.  The framer consumes the whole candidate and
empties its buffer, so the valid frame starting 3 bytes into the
candidate is never surfaced — the framer does not advance by one byte
past the leading `0xD3`. -/
theorem rtcm_one_byte_resync_counterexample :
    badStream = [0xD3, 0x00, 0x07] ++ goodFrame ∧
    rtcmCrcOk goodFrame = true ∧
    goodFrame.head? = some 0xD3 ∧
    (parse_message [] goodFrame).1 = [mkRTCMMsg goodFrame] ∧
    rtcmCrcOk (rtcmFrame badStream) = false ∧
    parse_message [] badStream = ([], []) := by
  refine ⟨rfl, by decide, by decide, by decide, by decide, by decide⟩

/-- C1 (amended): when the candidate frame at the head of the buffer
fails the CRC-24Q check, the framer discards the entire candidate — all
`L+6` bytes, not one byte — and resumes parsing on the remainder, so a
valid frame that starts inside the discarded candidate is lost. -/
theorem rtcm_crc_fail_discards_candidate (buffer data : List Nat)
    (h0 : (buffer ++ data).head? = some 0xD3)
    (hc : rtcmLen (buffer ++ data) + 6 ≤ (buffer ++ data).length)
    (hcrc : rtcmCrcOk (rtcmFrame (buffer ++ data)) = false) :
    parse_message buffer data = parse_message [] (rtcmRest (buffer ++ data)) := by
  rw [parse_message_def, parse_message_def]
  have hlen : 6 ≤ (buffer ++ data).length := by omega
  obtain ⟨f, hf⟩ : ∃ f, (buffer ++ data).length = f + 1 := ⟨(buffer ++ data).length - 1, by omega⟩
  rw [hf]
  rw [show parseLoopF (f + 1) (buffer ++ data) = parseStep (parseLoopF f) (buffer ++ data)
      from rfl]
  rw [parseStep_crc_fail _ _ h0 hc hcrc]
  have hr : (rtcmRest (buffer ++ data)).length ≤ f := by
    simp only [rtcmRest, List.length_drop]
    omega
  rw [parseLoopF_of_le f _ hr]
  simp

/-- Witness for the amended C1: the corrupted candidate of `badStream` is
dropped whole. -/
theorem rtcm_crc_fail_discards_candidate_witness :
    parse_message [] badStream = parse_message [] (rtcmRest ([] ++ badStream)) :=
  rtcm_crc_fail_discards_candidate [] badStream (by decide) (by decide) (by decide)

/-! ## Lemmas about the statistics table -/

/-- Bumping a key increments its counter by one. -/
theorem statGet_bump_self : ∀ (s : List (Nat × Nat)) (t : Nat),
    statGet (bump s t) t = statGet s t + 1 := by
  intro s
  induction s with
  | nil => intro t; simp [bump, statGet]
  | cons p s ih =>
    intro t
    obtain ⟨k, v⟩ := p
    by_cases h : k = t
    · subst h
      simp [bump, statGet]
    · have hbeq : (t == k) = false := by simpa using fun e => h e.symm
      simp only [bump, if_neg h, statGet, List.lookup, hbeq]
      exact ih t

/-- Bumping one key leaves the other counters unchanged. -/
theorem statGet_bump_ne : ∀ (s : List (Nat × Nat)) (t u : Nat), t ≠ u →
    statGet (bump s u) t = statGet s t := by
  intro s
  induction s with
  | nil =>
    intro t u h
    have hbeq : (t == u) = false := by simpa using h
    simp [bump, statGet, List.lookup, hbeq]
  | cons p s ih =>
    intro t u h
    obtain ⟨k, v⟩ := p
    by_cases hk : k = u
    · subst hk
      have hbeq : (t == k) = false := by simpa using h
      simp [bump, statGet, List.lookup, hbeq]
    · simp only [bump, if_neg hk]
      by_cases hkt : k = t
      · subst hkt
        simp [statGet, List.lookup]
      · have hbeq : (t == k) = false := by simpa using fun e => hkt e.symm
        simp only [statGet, List.lookup, hbeq]
        exact ih t u h

/-- The statistics pass counts, per type `t ≠ 0`, exactly the surfaced
messages of that type. -/
theorem statGet_updateStats : ∀ (msgs : List RTCMMsg) (stats : List (Nat × Nat)) (t : Nat),
    statGet (updateStats stats msgs) t =
      statGet stats t + msgs.countP (fun m => m.type == t && t != 0) := by
  intro msgs
  induction msgs with
  | nil => intro stats t; simp [updateStats]
  | cons m ms ih =>
    intro stats t
    rw [show updateStats stats (m :: ms) =
        updateStats (if m.type ≠ 0 then bump stats m.type else stats) ms from rfl]
    rw [ih, List.countP_cons]
    by_cases h0 : m.type = 0
    · have hp : (m.type == t && t != 0) = false := by
        rw [h0]
        cases t with
        | zero => simp
        | succ n => simp
      rw [if_neg (not_not_intro h0), hp]
      simp
    · by_cases ht : m.type = t
      · subst ht
        have hp : (m.type == m.type && m.type != 0) = true := by simp [h0]
        rw [if_pos h0, statGet_bump_self, hp]
        simp
        omega
      · have hp : (m.type == t && t != 0) = false := by simp [ht]
        rw [if_pos h0, statGet_bump_ne stats t m.type (fun e => ht e.symm), hp]
        simp

/-- C9 (counterexample): a complete RTCM frame with declared payload
length 0 passes the CRC-24Q check but is consumed without being reported
to callers — `parse_message` only reports frames whose payload has at
least 2 bytes. -/
theorem rtcm_crc_valid_reported_counterexample :
    rtcmCrcOk zeroFrame = true ∧
    zeroFrame.length = rtcmLen zeroFrame + 6 ∧
    rtcmLen zeroFrame = 0 ∧
    parse_message [] zeroFrame = ([], []) := by
  refine ⟨by decide, by decide, by decide, by decide⟩

/-- C9 (amended): an RTCM frame that passes the CRC-24Q check **and has
declared payload length at least 2** is reported to callers, and the
statistics counter for its type is incremented by exactly one relative
to the rest of the stream **when the type is nonzero** (the `if
msg_type:` truthiness test skips type 0); such frames are never treated
as errors. -/
theorem rtcm_crc_valid_frame_reported (frame rest : List Nat) (stats : List (Nat × Nat))
    (t : Nat)
    (h0 : frame.head? = some 0xD3)
    (hlen : frame.length = rtcmLen frame + 6)
    (hcrc : rtcmCrcOk frame = true)
    (hpay : 2 ≤ rtcmLen frame) :
    (parse_message [] (frame ++ rest)).1 = mkRTCMMsg frame :: (parse_message [] rest).1 ∧
    ((mkRTCMMsg frame).type = t → t ≠ 0 →
      statGet (updateStats stats (parse_message [] (frame ++ rest)).1) t =
        statGet (updateStats stats (parse_message [] rest).1) t + 1) := by
  have hfr3 : 3 ≤ frame.length := by omega
  have hlenapp : rtcmLen (frame ++ rest) = rtcmLen frame := rtcmLen_append frame rest hfr3
  have hhead : (frame ++ rest).head? = some 0xD3 := by
    cases frame with
    | nil => simp at h0
    | cons a f' => simpa using h0
  have hframe : rtcmFrame (frame ++ rest) = frame := by
    unfold rtcmFrame
    rw [hlenapp, ← hlen, List.take_left]
  have hrest : rtcmRest (frame ++ rest) = rest := by
    unfold rtcmRest
    rw [hlenapp, ← hlen, List.drop_left]
  have hcomplete : rtcmLen (frame ++ rest) + 6 ≤ (frame ++ rest).length := by
    rw [hlenapp, List.length_append]
    omega
  have hmain : (parse_message [] (frame ++ rest)) =
      (mkRTCMMsg frame :: (parse_message [] rest).1, (parse_message [] rest).2) := by
    rw [parse_message_def, parse_message_def]
    have h6 : 6 ≤ (frame ++ rest).length := by omega
    obtain ⟨f, hf⟩ : ∃ f, ([] ++ (frame ++ rest)).length = f + 1 :=
      ⟨([] ++ (frame ++ rest)).length - 1, by simp; omega⟩
    rw [hf]
    rw [show parseLoopF (f + 1) ([] ++ (frame ++ rest)) =
        parseStep (parseLoopF f) ([] ++ (frame ++ rest)) from rfl]
    simp only [List.nil_append] at hf ⊢
    rw [parseStep_crc_ok _ _ hhead hcomplete (by rw [hframe]; exact hcrc)
        (by rw [hlenapp]; exact hpay)]
    rw [hframe, hrest]
    have hr : rest.length ≤ f := by
      rw [List.length_append] at hf
      omega
    rw [parseLoopF_of_le f _ hr]
  refine ⟨by rw [hmain], ?_⟩
  intro hty ht0
  rw [hmain]
  rw [statGet_updateStats, statGet_updateStats, List.countP_cons]
  have hp : ((mkRTCMMsg frame).type == t && t != 0) = true := by simp [hty, ht0]
  rw [hp]
  simp
  omega

/-- Witness for the amended C9: the mock frame (type 2731, length 4) at
the head of a stream is reported and counted once. -/
theorem rtcm_crc_valid_frame_reported_witness :
    (parse_message [] (goodFrame ++ [0xAA])).1 =
        mkRTCMMsg goodFrame :: (parse_message [] [0xAA]).1 ∧
      ((mkRTCMMsg goodFrame).type = 2731 → (2731 : Nat) ≠ 0 →
        statGet (updateStats [] (parse_message [] (goodFrame ++ [0xAA])).1) 2731 =
          statGet (updateStats [] (parse_message [] [0xAA]).1) 2731 + 1) :=
  rtcm_crc_valid_frame_reported goodFrame [0xAA] [] 2731 (by decide) (by decide) (by decide)
    (by decide)

/-! ## C2 and C6: the mediator's NTRIP data path and keep-alive -/

/-- C2: with a serial endpoint configured and open, every NTRIP data
chunk is written verbatim to the serial endpoint first, and only then
fed to the RTCM decoder — independently of what the decoder makes of the
bytes; the decoder receives exactly the same chunk. -/
theorem ntrip_bytes_forwarded_before_parse (st : RTKState) (data : List Nat)
    (hc : st.serial_configured = true) (hs : st.serial_connected = true) :
    (on_ntrip_data st data).2 = [Event.serialWrite data, Event.rtcmFeed data] ∧
    (on_ntrip_data st data).1.rtcm_buffer = (parse_message st.rtcm_buffer data).2 ∧
    (on_ntrip_data st data).1.rtcm_stats =
      updateStats st.rtcm_stats (parse_message st.rtcm_buffer data).1 := by
  refine ⟨?_, rfl, rfl⟩
  simp [on_ntrip_data, send_data, hc, hs]

/-- Witness for C2 on the corrupted stream (which the parser rejects
wholesale — the serial write still precedes the parser feed). -/
theorem ntrip_bytes_forwarded_before_parse_witness :
    (on_ntrip_data st0 badStream).2 = [Event.serialWrite badStream, Event.rtcmFeed badStream] ∧
      (on_ntrip_data st0 badStream).1.rtcm_buffer = (parse_message st0.rtcm_buffer badStream).2 ∧
      (on_ntrip_data st0 badStream).1.rtcm_stats =
        updateStats st0.rtcm_stats (parse_message st0.rtcm_buffer badStream).1 :=
  ntrip_bytes_forwarded_before_parse st0 badStream (by decide) (by decide)

/-- C6: on a supervisor tick with the NTRIP endpoint connected and the
wall clock more than `T_keep = 2` seconds past `last_gga_time`, the
default GGA is sent upstream; the supervisor never modifies the mediator
state, in particular `last_gga_time`. -/
theorem keepalive_sends_default_gga (st : RTKState) (nowT : ℚ)
    (hc : st.ntrip_configured = true) (hn : st.ntrip_connected = true)
    (ht : nowT - st.last_gga_time > 2) :
    Event.ntripSend (default_gga ++ CRLF) ∈ (monitor_tick st nowT).2 ∧
    (monitor_tick st nowT).1 = st := by
  refine ⟨?_, rfl⟩
  simp [monitor_tick, send_gga, hc, hn, ht]

/-- Witness for C6: three seconds into a session with no receiver GGA. -/
theorem keepalive_sends_default_gga_witness :
    Event.ntripSend (default_gga ++ CRLF) ∈ (monitor_tick st0 3).2 ∧
      (monitor_tick st0 3).1 = st0 :=
  keepalive_sends_default_gga st0 3 (by decide) (by decide) (by norm_num [st0])

/-! ## Lemmas about NMEA checksum validation -/

/-- Unfolding of a successful `validate_checksum`. -/
theorem validate_checksum_spec (t : List Char) (h : validate_checksum t = true) :
    8 ≤ t.length ∧
    t.contains '*' = true ∧
    (nmea_post t).length = 2 ∧
    calculate_checksum ((nmea_pre t).drop 1) = (nmea_post t).map Char.toUpper := by
  unfold validate_checksum at h
  split at h
  · exact absurd h (by simp)
  · split at h
    · exact absurd h (by simp)
    · split at h
      · exact absurd h (by simp)
      · rename_i h8 hstar h2
        exact ⟨by omega, not_not.mp hstar, not_not.mp (by simpa using h2),
          by simpa using h⟩

/-- Every character produced by `toHexAux` is an uppercase hex digit. -/
theorem mem_toHexAux : ∀ (fuel n : Nat) (c : Char), c ∈ toHexAux fuel n →
    ∃ k, k < 16 ∧ c = hexDigitU k := by
  intro fuel
  induction fuel with
  | zero =>
    intro n c h
    simp only [toHexAux, List.mem_singleton] at h
    exact ⟨n % 16, Nat.mod_lt _ (by omega), h⟩
  | succ fuel ih =>
    intro n c h
    simp only [toHexAux] at h
    split at h
    · rename_i hlt
      simp only [List.mem_singleton] at h
      exact ⟨n, hlt, h⟩
    · rcases List.mem_append.mp h with h1 | h2
      · exact ih _ _ h1
      · simp only [List.mem_singleton] at h2
        exact ⟨n % 16, Nat.mod_lt _ (by omega), h2⟩

/-- Every character produced by `pyHex02` is an uppercase hex digit. -/
theorem mem_pyHex02 (n : Nat) (c : Char) (h : c ∈ pyHex02 n) :
    ∃ k, k < 16 ∧ c = hexDigitU k := by
  unfold pyHex02 at h
  split at h
  · rename_i hlt
    simp only [List.mem_cons, List.not_mem_nil, or_false] at h
    rcases h with h | h
    · exact ⟨0, by omega, by rw [h]; decide⟩
    · exact ⟨n, hlt, h⟩
  · exact mem_toHexAux n n c h

/-- No hex digit is the `*` delimiter. -/
theorem hexDigitU_ne_star (k : Nat) (hk : k < 16) : hexDigitU k ≠ '*' := by
  interval_cases k <;> decide

/-- A string containing `*` has `*` at the head of its star-dropWhile. -/
theorem dropWhile_star_head : ∀ (l : List Char), l.contains '*' = true →
    (l.dropWhile (fun c => c ≠ '*')).head? = some '*' := by
  intro l
  induction l with
  | nil => intro h; simp at h
  | cons a t ih =>
    intro h
    by_cases ha : a = '*'
    · subst ha
      simp [List.dropWhile_cons]
    · rw [List.dropWhile_cons, if_pos (by simp [ha])]
      apply ih
      have ha' : ¬ '*' = a := fun e => ha e.symm
      simpa [List.contains_cons, ha'] using h

/-- A string containing `*` splits as pre-part, `*`, post-part. -/
theorem star_decomp (t : List Char) (h : t.contains '*' = true) :
    t = nmea_pre t ++ '*' :: nmea_post t := by
  have hd := dropWhile_star_head t h
  have hsplit := List.takeWhile_append_dropWhile (p := fun c => decide (c ≠ '*')) (l := t)
  cases hdw : t.dropWhile (fun c => c ≠ '*') with
  | nil => rw [hdw] at hd; simp at hd
  | cons x xs =>
    rw [hdw] at hd
    simp only [List.head?_cons, Option.some.injEq] at hd
    subst hd
    unfold nmea_pre nmea_post
    rw [hdw]
    rw [show (('*' :: xs).drop 1) = xs from rfl]
    rw [← hdw]
    exact hsplit.symm

/-! ## Inverting `parse_sentence` at a dispatch -/

/-- Any dispatched sentence got past the `$` test and checksum
validation, and its fields are the comma-split of the pre-`*` part. -/
theorem parse_sentence_dispatch_inv (st : NMEAState) (s : List Char) (d : Dispatch)
    (h : (parse_sentence st s).2.2 = some d) :
    (pyStrip s).head? = some '$' ∧
    validate_checksum (pyStrip s) = true ∧
    d.fields = (nmea_pre (pyStrip s)).splitOn ',' ∧
    d.mtype = (((nmea_pre (pyStrip s)).splitOn ',').getD 0 []).drop 3 := by
  simp only [parse_sentence] at h
  split at h
  · exact absurd h (by simp)
  · rename_i hdollar
    split at h
    · exact absurd h (by simp)
    · rename_i hvalho
      have hval : validate_checksum (pyStrip s) = true := not_not.mp hvalho
      have hcontains : (pyStrip s).contains '*' = true :=
        (validate_checksum_spec _ hval).2.1
      rw [if_pos hcontains] at h
      refine ⟨not_not.mp (by simpa using hdollar), hval, ?_⟩
      split at h
      · exact absurd h (by simp)
      · split at h
        · simp only [Option.some.injEq] at h
          subst h
          exact ⟨rfl, rfl⟩
        · split at h
          · simp only [Option.some.injEq] at h
            subst h
            exact ⟨rfl, rfl⟩
          · split at h
            · simp only [Option.some.injEq] at h
              subst h
              exact ⟨rfl, rfl⟩
            · simp only [Option.some.injEq] at h
              subst h
              exact ⟨rfl, rfl⟩

/-- A dispatch whose type is `GGA` carries the value of `parse_gga` on
the rolling fix, which is also the parser's new rolling fix and its
return value. -/
theorem parse_sentence_gga_inv (st : NMEAState) (s : List Char) (d : Dispatch)
    (h : (parse_sentence st s).2.2 = some d)
    (hty : d.mtype = "GGA".data) :
    d.position = some (parse_gga st.position d.fields) ∧
    (parse_sentence st s).2.1 = { st with position := parse_gga st.position d.fields } ∧
    (parse_sentence st s).1 = some (parse_gga st.position d.fields) := by
  simp only [parse_sentence] at h ⊢
  split at h
  · exact absurd h (by simp)
  · rename_i hdollar
    split at h
    · exact absurd h (by simp)
    · rename_i hvalho
      have hval : validate_checksum (pyStrip s) = true := not_not.mp hvalho
      have hcontains : (pyStrip s).contains '*' = true :=
        (validate_checksum_spec _ hval).2.1
      rw [if_pos hcontains] at h ⊢
      rw [if_neg (by simpa using hdollar), if_neg (by simpa using hvalho)]
      split at h
      · exact absurd h (by simp)
      · rename_i henabled
        rw [if_neg henabled]
        split at h
        · rename_i hgga
          simp only [Option.some.injEq] at h
          subst h
          rw [if_pos hgga]
          exact ⟨rfl, rfl, rfl⟩
        · rename_i hgga
          split at h
          · simp only [Option.some.injEq] at h
            subst h
            exact absurd hty hgga
          · split at h
            · simp only [Option.some.injEq] at h
              subst h
              exact absurd hty hgga
            · simp only [Option.some.injEq] at h
              subst h
              exact absurd hty hgga

/-! ## C4: integrity of dispatched NMEA sentences -/

/-- C4: every sentence that reaches a dispatch (and hence a registered
handler) begins with `$`, contains exactly one `*`, has exactly two
characters after the `*`, and those two characters — uppercased — equal
the two-digit uppercase hex rendering of the XOR of all characters
strictly between `$` and `*`. -/
theorem nmea_dispatched_sentence_integrity (st : NMEAState) (s : List Char) (d : Dispatch)
    (h : (parse_sentence st s).2.2 = some d) :
    (pyStrip s).head? = some '$' ∧
    (pyStrip s).count '*' = 1 ∧
    (nmea_post (pyStrip s)).length = 2 ∧
    (nmea_post (pyStrip s)).map Char.toUpper =
      pyHex02 (nmea_xor ((nmea_pre (pyStrip s)).drop 1)) := by
  obtain ⟨hdollar, hval, -, -⟩ := parse_sentence_dispatch_inv st s d h
  obtain ⟨h8, hcontains, hlen2, hsum⟩ := validate_checksum_spec _ hval
  have hmap : (nmea_post (pyStrip s)).map Char.toUpper =
      pyHex02 (nmea_xor ((nmea_pre (pyStrip s)).drop 1)) := hsum.symm
  refine ⟨hdollar, ?_, hlen2, hmap⟩
  have hdecomp := star_decomp (pyStrip s) hcontains
  have hcount : (pyStrip s).count '*' =
      (nmea_pre (pyStrip s)).count '*' + ('*' :: nmea_post (pyStrip s)).count '*' := by
    conv_lhs => rw [hdecomp]
    rw [List.count_append]
  have hpre : (nmea_pre (pyStrip s)).count '*' = 0 := by
    rw [List.count_eq_zero]
    intro hmem
    have := List.mem_takeWhile_imp hmem
    simp at this
  have hpost : (nmea_post (pyStrip s)).count '*' = 0 := by
    rw [List.count_eq_zero]
    intro hmem
    have h1 : Char.toUpper '*' ∈ (nmea_post (pyStrip s)).map Char.toUpper :=
      List.mem_map_of_mem _ hmem
    rw [hmap] at h1
    obtain ⟨k, hk, he⟩ := mem_pyHex02 _ _ h1
    have hstar : Char.toUpper '*' = '*' := by decide
    rw [hstar] at he
    exact hexDigitU_ne_star k hk he.symm
  rw [hcount, hpre, List.count_cons_self, hpost]

/-- Witness for C4 on a dispatched GGA sentence. -/
theorem nmea_dispatched_sentence_integrity_witness :
    (pyStrip shortGGA).head? = some '$' ∧
      (pyStrip shortGGA).count '*' = 1 ∧
      (nmea_post (pyStrip shortGGA)).length = 2 ∧
      (nmea_post (pyStrip shortGGA)).map Char.toUpper =
        pyHex02 (nmea_xor ((nmea_pre (pyStrip shortGGA)).drop 1)) :=
  nmea_dispatched_sentence_integrity nmeaGood shortGGA (dOf nmeaGood shortGGA) (by decide)

/-! ## C5: the GGA uplink line -/

/-- C5 (counterexample): feeding the seed GGA (valid fix, NTRIP
connected) through the parser and GGA handler writes the sentence
**without** its `*47` checksum suffix to the NTRIP socket; the full
original sentence is never written. -/
theorem gga_uplink_includes_checksum_counterexample :
    Event.ntripSend
        ("$GPGGA,123519,4807.038,N,01131.000,E,1,08,0.9,545.4,M,46.9,M,,".data ++ CRLF) ∈
      c5trace ∧
    ¬ Event.ntripSend (seedGGA ++ CRLF) ∈ c5trace := ⟨by decide, by decide⟩

/-- C5 (amended): for a dispatched GGA with valid fix quality and a
configured, connected NTRIP endpoint, the line written to the NTRIP
socket is the original sentence **with its `*CC` checksum suffix
removed** (the comma-join of the parsed fields, i.e. the part of the
stripped sentence before `*`), terminated with `\r\n`. -/
theorem gga_uplink_strips_checksum (st : NMEAState) (m : RTKState) (nowT : ℚ)
    (s : List Char) (d : Dispatch) (p : GPSPosition)
    (hd : (parse_sentence st s).2.2 = some d)
    (hty : d.mtype = "GGA".data)
    (hp : d.position = some p)
    (hq : p.fix_quality ≠ FixQuality.INVALID)
    (hcfg : m.ntrip_configured = true) (hconn : m.ntrip_connected = true) :
    Event.ntripSend (nmea_pre (pyStrip s) ++ CRLF) ∈
      (on_gga_received m nowT d.fields d.position).2 := by
  obtain ⟨-, -, hfields, -⟩ := parse_sentence_dispatch_inv st s d hd
  have hjoin : joinComma d.fields = nmea_pre (pyStrip s) := by
    rw [hfields]
    exact List.intercalate_splitOn _ ','
  rw [← hjoin, hp]
  simp [on_gga_received, hq, hcfg, hconn, send_gga]

/-- Witness for the amended C5 on a dispatched GGA with a valid rolling
fix. -/
theorem gga_uplink_strips_checksum_witness :
    Event.ntripSend (nmea_pre (pyStrip shortGGA) ++ CRLF) ∈
      (on_gga_received st0 5 (dOf nmeaGood shortGGA).fields (dOf nmeaGood shortGGA).position).2 :=
  gga_uplink_strips_checksum nmeaGood st0 5 shortGGA (dOf nmeaGood shortGGA)
    (((dOf nmeaGood shortGGA).position).getD initPos)
    (by decide) (by decide) (by decide) (by decide) (by decide) (by decide)

/-! ## Inverting a successful GGA assembly -/

/-- `FixQuality(q)` raises for negative `q`. -/
theorem fixQuality_ofInt_neg (q : Int) (h : q < 0) : FixQuality.ofInt? q = none := by
  unfold FixQuality.ofInt?
  repeat rw [if_neg (by omega)]

/-- A successful `ggaAssemble` means every numeric step succeeded, and
the result is the record assembled from those steps. -/
theorem ggaAssemble_ok (fields : List (List Char)) (p : GPSPosition)
    (h : ggaAssemble fields = .ok p) :
    ∃ ts fq sats hdop altitude age stn,
      timeOfDay (fields.getD 1 []) = .ok ts ∧
      ggaQuality (fields.getD 6 []) = .ok fq ∧
      optInt (fields.getD 7 []) = .ok sats ∧
      optFloat (fields.getD 8 []) = .ok hdop ∧
      optFloat (fields.getD 9 []) = .ok altitude ∧
      optFloat (fields.getD 13 []) = .ok age ∧
      optInt (fields.getD 14 []) = .ok stn ∧
      p = { latitude := parse_coordinate (fields.getD 2 []) (fields.getD 3 [])
            longitude := parse_coordinate (fields.getD 4 []) (fields.getD 5 [])
            altitude := altitude
            fix_quality := fq
            satellites_used := sats
            hdop := hdop
            timestamp := ts
            age := age
            stn_id := stn } := by
  unfold ggaAssemble at h
  split at h
  · exact absurd h (by simp)
  · rename_i ts hts
    split at h
    · exact absurd h (by simp)
    · rename_i fq hfq
      split at h
      · exact absurd h (by simp)
      · rename_i sats hsats
        split at h
        · exact absurd h (by simp)
        · rename_i hdop hhdop
          split at h
          · exact absurd h (by simp)
          · rename_i altitude halt
            split at h
            · exact absurd h (by simp)
            · rename_i age hage
              split at h
              · exact absurd h (by simp)
              · rename_i stn hstn
                simp only [Except.ok.injEq] at h
                subst h
                exact ⟨ts, fq, sats, hdop, altitude, age, stn,
                  hts, hfq, hsats, hhdop, halt, hage, hstn, rfl⟩

/-- A successful `ggaQuality` comes from a parsed integer that is either
in range (enum lookup) or above 8 (clamped to invalid). -/
theorem ggaQuality_ok (s : List Char) (fq : FixQuality) (h : ggaQuality s = .ok fq) :
    ∃ q, optInt s = .ok q ∧
      ((q ≤ 8 ∧ FixQuality.ofInt? q = some fq) ∨ (8 < q ∧ fq = FixQuality.INVALID)) := by
  unfold ggaQuality at h
  split at h
  · exact absurd h (by simp)
  · rename_i q hq
    split at h
    · rename_i hle
      split at h
      · rename_i f hf
        simp only [Except.ok.injEq] at h
        subst h
        exact ⟨q, hq, Or.inl ⟨hle, hf⟩⟩
      · exact absurd h (by simp)
    · rename_i hgt
      simp only [Except.ok.injEq] at h
      subst h
      exact ⟨q, hq, Or.inr ⟨by omega, rfl⟩⟩

/-! ## C7: out-of-range quality values -/

/-- C7 (counterexample): a GGA sentence with quality `-1` — an integer
outside 0–8 — does not produce an invalid-quality fix: `FixQuality(-1)`
raises, the whole update is aborted, and the previous rolling fix (here
one with quality `GPS_FIX`) is returned unchanged. -/
theorem gga_negative_quality_counterexample :
    pyInt ("-1".data) = Except.ok (-1) ∧
    parse_gga posFix fieldsNegQ = posFix ∧
    posFix.fix_quality = FixQuality.GPS_FIX := ⟨by decide, by decide, by decide⟩

/-- C7 (amended): a quality integer **above 8** collapses to invalid
whenever the update succeeds; a **negative** quality integer raises
inside the `try` block, so the update is aborted and the previous
rolling fix is returned unchanged (with whatever quality it held). -/
theorem gga_quality_clamp (pos : GPSPosition) (fields : List (List Char)) (q : Int)
    (hlen : ¬ fields.length < 15)
    (hne : fields.getD 6 [] ≠ [])
    (hq : pyInt (fields.getD 6 []) = Except.ok q) :
    (8 < q → (parse_gga pos fields).fix_quality = FixQuality.INVALID ∨
      parse_gga pos fields = pos) ∧
    (q < 0 → parse_gga pos fields = pos) := by
  have hopt : optInt (fields.getD 6 []) = Except.ok q := by
    unfold optInt
    rw [if_neg hne]
    exact hq
  constructor
  · intro h8
    unfold parse_gga
    rw [if_neg hlen]
    cases hass : ggaAssemble fields with
    | error e => exact Or.inr rfl
    | ok p =>
      left
      obtain ⟨ts, fq, sats, hdop, alt, age, stn, hts, hfq, -, -, -, -, -, hp⟩ :=
        ggaAssemble_ok fields p hass
      obtain ⟨q', hq', hcase⟩ := ggaQuality_ok _ _ hfq
      rw [hopt] at hq'
      simp only [Except.ok.injEq] at hq'
      subst hq'
      rcases hcase with ⟨hle, -⟩ | ⟨-, hfqv⟩
      · omega
      · rw [hp, hfqv]
  · intro hneg
    unfold parse_gga
    rw [if_neg hlen]
    cases hass : ggaAssemble fields with
    | error e => rfl
    | ok p =>
      obtain ⟨ts, fq, sats, hdop, alt, age, stn, hts, hfq, -, -, -, -, -, hp⟩ :=
        ggaAssemble_ok fields p hass
      obtain ⟨q', hq', hcase⟩ := ggaQuality_ok _ _ hfq
      rw [hopt] at hq'
      simp only [Except.ok.injEq] at hq'
      subst hq'
      rcases hcase with ⟨-, hsome⟩ | ⟨hgt, -⟩
      · rw [fixQuality_ofInt_neg q hneg] at hsome
        exact absurd hsome (by simp)
      · omega

/-- Witness for the amended C7: quality `9` clamps (when the update
succeeds), quality `-1` aborts the update. -/
theorem gga_quality_clamp_witness :
    ((parse_gga posFix fieldsQ9).fix_quality = FixQuality.INVALID ∨
      parse_gga posFix fieldsQ9 = posFix) ∧
    parse_gga posFix fieldsNegQ = posFix :=
  ⟨(gga_quality_clamp posFix fieldsQ9 9 (by decide) (by decide) (by decide)).1 (by norm_num),
    (gga_quality_clamp posFix fieldsNegQ (-1) (by decide) (by decide) (by decide)).2
      (by norm_num)⟩

/-! ## C8: per-field error tolerance -/

/-- C8 (counterexample): in a GGA sentence whose satellites field alone
is unparseable (`xx`), the parser does not return a fix with that field
zeroed and the rest taken from the sentence — it discards the whole
update and returns the previous rolling fix: the sentence declares
quality 1 (`GPS_FIX`), yet the returned fix still has quality
`INVALID` from the previous state. -/
theorem gga_field_tolerance_counterexample :
    parse_gga initPos fieldsBadSats = initPos ∧
    initPos.fix_quality = FixQuality.INVALID ∧
    ggaQuality ("1".data) = Except.ok FixQuality.GPS_FIX ∧
    pyInt ("xx".data) = Except.error () := ⟨by decide, by decide, by decide, by decide⟩

/-- C8 (amended): an **empty** numeric field is tolerated — the fix is
assembled with that field zero (shown for HDOP) — but a **non-empty**
numeric field that fails to parse raises inside the `try` block, so the
whole update is discarded and the previous rolling fix returned
unchanged. -/
theorem gga_field_error_policy (pos : GPSPosition) (fields : List (List Char))
    (hlen : ¬ fields.length < 15) :
    (fields.getD 8 [] ≠ [] → pyFloat (fields.getD 8 []) = Except.error () →
      parse_gga pos fields = pos) ∧
    (fields.getD 8 [] = [] →
      parse_gga pos fields = pos ∨ (parse_gga pos fields).hdop = 0) := by
  constructor
  · intro hne herr
    unfold parse_gga
    rw [if_neg hlen]
    cases hass : ggaAssemble fields with
    | error e => rfl
    | ok p =>
      obtain ⟨ts, fq, sats, hdop, alt, age, stn, -, -, -, hhdop, -, -, -, -⟩ :=
        ggaAssemble_ok fields p hass
      unfold optFloat at hhdop
      rw [if_neg hne, herr] at hhdop
      exact absurd hhdop (by simp)
  · intro hemp
    unfold parse_gga
    rw [if_neg hlen]
    cases hass : ggaAssemble fields with
    | error e => exact Or.inl rfl
    | ok p =>
      right
      obtain ⟨ts, fq, sats, hdop, alt, age, stn, -, -, -, hhdop, -, -, -, hp⟩ :=
        ggaAssemble_ok fields p hass
      unfold optFloat at hhdop
      rw [if_pos hemp] at hhdop
      simp only [Except.ok.injEq] at hhdop
      rw [hp]
      exact hhdop.symm

/-- Witness for the amended C8: a malformed HDOP aborts the update; an
empty HDOP yields a fix whose HDOP is zero. -/
theorem gga_field_error_policy_witness :
    parse_gga initPos fieldsBadHdop = initPos ∧
      (parse_gga initPos fieldsEmptyHdop = initPos ∨
        (parse_gga initPos fieldsEmptyHdop).hdop = 0) :=
  ⟨(gga_field_error_policy initPos fieldsBadHdop (by decide)).1 (by decide) (by decide),
    (gga_field_error_policy initPos fieldsEmptyHdop (by decide)).2 (by decide)⟩

/-! ## C10: short GGA sentences dispatch the stale rolling fix -/

/-- C10: a checksum-valid GGA sentence with fewer than 15 fields makes
`parse_gga` return the previous rolling fix unchanged, yet the GGA
handler still fires with that stale fix: the mediator stamps
`last_gga_time`, forwards the stale fix to the position sink, and — if
the stale fix's quality is valid and NTRIP is connected — uplinks the
comma-joined fields of the *new* short sentence as if the fix were
fresh. -/
theorem short_gga_fires_with_stale_fix (st : NMEAState) (m : RTKState) (nowT : ℚ)
    (s : List Char) (d : Dispatch)
    (hd : (parse_sentence st s).2.2 = some d)
    (hty : d.mtype = "GGA".data)
    (hshort : d.fields.length < 15) :
    d.position = some st.position ∧
    (parse_sentence st s).2.1.position = st.position ∧
    (on_gga_received m nowT d.fields d.position).1.last_gga_time = nowT ∧
    (m.has_position_handler = true →
      Event.sinkPosition (some st.position) ∈ (on_gga_received m nowT d.fields d.position).2) ∧
    (st.position.fix_quality ≠ FixQuality.INVALID → m.ntrip_configured = true →
      m.ntrip_connected = true →
      Event.ntripSend (joinComma d.fields ++ CRLF) ∈
        (on_gga_received m nowT d.fields d.position).2) := by
  obtain ⟨hpos, hstate, -⟩ := parse_sentence_gga_inv st s d hd hty
  have hgga : parse_gga st.position d.fields = st.position := by
    unfold parse_gga
    rw [if_pos hshort]
  rw [hgga] at hpos hstate
  refine ⟨hpos, by rw [hstate], by simp [on_gga_received], ?_, ?_⟩
  · intro hh
    rw [hpos]
    simp [on_gga_received, hh]
  · intro hq hcfg hconn
    rw [hpos]
    simp [on_gga_received, hq, hcfg, hconn, send_gga]

/-- Witness for C10: the two-field sentence `$GPGGA,123519*77` against a
rolling fix with a valid GPS quality. -/
theorem short_gga_fires_with_stale_fix_witness :
    (dOf nmeaGood shortGGA).position = some nmeaGood.position ∧
      Event.sinkPosition (some nmeaGood.position) ∈
        (on_gga_received st0 7 (dOf nmeaGood shortGGA).fields
          (dOf nmeaGood shortGGA).position).2 ∧
      Event.ntripSend (joinComma (dOf nmeaGood shortGGA).fields ++ CRLF) ∈
        (on_gga_received st0 7 (dOf nmeaGood shortGGA).fields
          (dOf nmeaGood shortGGA).position).2 := by
  have h := short_gga_fires_with_stale_fix nmeaGood st0 7 shortGGA (dOf nmeaGood shortGGA)
    (by decide) (by decide) (by decide)
  exact ⟨h.1, h.2.2.2.1 (by decide), h.2.2.2.2 (by decide) (by decide) (by decide)⟩
